import Mathlib

/-!
# Verification of the ace-presentation temporal-orchestration core

This file gives a shallow embedding, in Lean, of the three JavaScript
controllers that form the core of the `ace-presentation` repository:

* `ACEPresentation` (src/js/main.js): section navigation (`navigateToSection`,
  `nextSection`, `previousSection`) and the `sectionChanged` custom event;
* `PresentationController` (the unnamed presentation-controller source file):
  the static `flowSteps` configuration, `handleSectionChange`,
  `executeFlowStep`, `executeAction`, `nextStep`/`previousStep`/`gotoStep`,
  `play`/`pause`/`stop`/`reset`;
* `DemoController` (src/js/demo-mode.js): the automated demo script and its
  `start`/`stop`/`pause`/`resume`/`executeStep`/`nextStep`/`skipToStep`
  lifecycle.

The browser's timer service (`setTimeout`/`clearTimeout`) is modelled
explicitly: scheduling appends a timer record (fresh integer handle, absolute
fire time, task) to a list, and an event-loop step removes and runs the
pending timer with the smallest fire time (ties broken by handle order, which
matches registration order).  `CustomEvent` dispatch is synchronous in the
browser, so dispatching `sectionChanged` is modelled as a direct call to the
registered listeners.  DOM-only effects (class toggling, text updates) are
outside the core contract; executing an action records an observable event
instead.  Effects of flow actions and demo actions on external collaborators
(scene, modals, data store) are opaque per the specification's §6.
-/

/-- The five section identifiers in canonical order
(`sections` array in main.js `nextSection`/`previousSection`,
equal to `sectionOrder` in the presentation controller). -/
def SECTIONS : List String := ["chaos", "valet", "manager", "executive", "closing"]

/-- Translation of JavaScript `Array.prototype.findIndex` returning an
optional index instead of `-1`. -/
def listFindIdx {α : Type} (p : α → Bool) : List α → Option Nat
  | [] => none
  | a :: l => if p a then some 0 else (listFindIdx p l).map (· + 1)

/-- Translation of JavaScript `Array.prototype.indexOf` on string arrays:
`-1` when absent, the first index otherwise. -/
def listIndexOf (x : String) (l : List String) : Int :=
  match listFindIdx (fun y => y == x) l with
  | some i => (i : Int)
  | none => -1

/-- The action names that the presentation controller's `executeAction`
switch recognises; any other name falls into the `default` branch
(`console.warn`).  `unknown` carries the unrecognised name. -/
inductive ActionType
  | showSection
  | highlight3DPapers
  | showProblemCount
  | emphasizeCosts
  | showFirefighter
  | demonstrateProblemSolving
  | showTrainingSolutions
  | animatePaperToBinder
  | showWatchtower
  | openBinder
  | showProcesses
  | demonstrateOversight
  | showPlane
  | displayKPIs
  | showROICalculator
  | demonstrateROI
  | showPredictiveAnalytics
  | showTransformation
  | highlightPilotProgram
  | showNextSteps
  | emphasizeCTA
  | unknown (name : String)
deriving DecidableEq, BEq, Repr

/-- One entry of a flow step's `actions` array: `{ type, target?, delay? }`. -/
structure FlowAction where
  type : ActionType
  target : Option String := none
  delay : Option Nat := none
deriving DecidableEq, Repr

/-- One entry of `this.flowSteps` (the JS field is `section`; Lean reserves
that word, so the field is `sectionId` here). -/
structure FlowStep where
  sectionId : String
  title : String
  duration : Nat
  actions : List FlowAction
  presenterNotes : String
deriving DecidableEq, Repr

/-- Fallback record for total list indexing; never reached on the indices the
source actually uses (mirrors the fact that the JS indexes are always in
range on those paths). -/
def defaultFlowStep : FlowStep :=
  { sectionId := "", title := "", duration := 0, actions := [], presenterNotes := "" }

/-- The static flow configuration built by `setupPresentationFlow`. -/
def flowSteps : List FlowStep :=
  [ { sectionId := "chaos"
    , title := "The Current State - Chaos"
    , duration := 60000
    , actions :=
        [ { type := ActionType.showSection, target := some "chaos" }
        , { type := ActionType.highlight3DPapers, delay := some 2000 }
        , { type := ActionType.showProblemCount, delay := some 4000 }
        , { type := ActionType.emphasizeCosts, delay := some 6000 } ]
    , presenterNotes := "Introduce the current chaotic state. Point out the scattered papers representing problems. Emphasize financial impact." }
  , { sectionId := "valet"
    , title := "The Valet - Firefighter Response"
    , duration := 90000
    , actions :=
        [ { type := ActionType.showSection, target := some "valet" }
        , { type := ActionType.showFirefighter, delay := some 2000 }
        , { type := ActionType.demonstrateProblemSolving, delay := some 4000 }
        , { type := ActionType.showTrainingSolutions, delay := some 6000 }
        , { type := ActionType.animatePaperToBinder, delay := some 8000 } ]
    , presenterNotes := "Explain the valet as a firefighter. Show how problems are addressed reactively. Introduce systematic solutions." }
  , { sectionId := "manager"
    , title := "The Manager - Watchtower Oversight"
    , duration := 90000
    , actions :=
        [ { type := ActionType.showSection, target := some "manager" }
        , { type := ActionType.showWatchtower, delay := some 2000 }
        , { type := ActionType.openBinder, delay := some 4000 }
        , { type := ActionType.showProcesses, delay := some 6000 }
        , { type := ActionType.demonstrateOversight, delay := some 8000 } ]
    , presenterNotes := "Introduce the manager as watchtower. Show systematic oversight. Demonstrate process organization." }
  , { sectionId := "executive"
    , title := "The Executive - Strategic Overview"
    , duration := 120000
    , actions :=
        [ { type := ActionType.showSection, target := some "executive" }
        , { type := ActionType.showPlane, delay := some 2000 }
        , { type := ActionType.displayKPIs, delay := some 4000 }
        , { type := ActionType.showROICalculator, delay := some 6000 }
        , { type := ActionType.demonstrateROI, delay := some 8000 }
        , { type := ActionType.showPredictiveAnalytics, delay := some 10000 } ]
    , presenterNotes := "Present executive view as fire-spotter plane. Show KPIs and ROI. Demonstrate predictive capabilities." }
  , { sectionId := "closing"
    , title := "The Path Forward - Call to Action"
    , duration := 60000
    , actions :=
        [ { type := ActionType.showSection, target := some "closing" }
        , { type := ActionType.showTransformation, delay := some 2000 }
        , { type := ActionType.highlightPilotProgram, delay := some 4000 }
        , { type := ActionType.showNextSteps, delay := some 6000 }
        , { type := ActionType.emphasizeCTA, delay := some 8000 } ]
    , presenterNotes := "Summarize transformation. Highlight pilot program. Strong call to action." } ]

/-- What a pending presentation-controller timer will do when it fires:
run a delayed flow action (`setTimeout(() => this.executeAction(action),
action.delay)`) or auto-advance (`setTimeout(() => this.nextStep(),
step.duration)`). -/
inductive TimerTask
  | runAction (a : FlowAction)
  | autoAdvance
deriving DecidableEq, Repr

/-- A pending `setTimeout` registration: handle, absolute fire time, task. -/
structure Timer where
  id : Nat
  fireAt : Nat
  task : TimerTask
deriving DecidableEq, Repr

/-- Observable events of a run of the presentation core. -/
inductive Ev
  /-- the `sectionChanged` CustomEvent and its `detail` payload:
  `detail.sectionId` and `detail.previousSection` as the code builds them. -/
  | sectionChangedSignal (sectionId : String) (previousSection : String)
  /-- a flow action's effect ran (at the given absolute time). -/
  | actionExecuted (time : Nat) (t : ActionType)
  /-- the `default` branch of `executeAction` logged an unknown action name. -/
  | unknownActionWarned (name : String)
  /-- `presentationState.isPlaying` transitioned from true to false. -/
  | playingSetFalse (time : Nat)
deriving DecidableEq, Repr

/-- Combined state of `ACEPresentation` (navigation), `PresentationController`
(flow and presentation state) and the browser timer service. -/
structure Sim where
  /-- `ACEPresentation.currentSection` -/
  aceSection : String
  /-- `PresentationController.currentSection` -/
  pcSection : String
  /-- `PresentationController.currentStep` -/
  currentStep : Nat
  isPlaying : Bool
  isPaused : Bool
  /-- `presentationState.startTime` (absolute milliseconds, nullable) -/
  startTime : Option Nat
  /-- `presentationState.currentTime` -/
  currentTime : Nat
  /-- `presentationState.totalDuration` -/
  totalDuration : Nat
  /-- `PresentationController.autoAdvance` -/
  autoAdvance : Bool
  /-- pending `setTimeout` registrations of the flow scheduler -/
  timers : List Timer
  /-- next fresh timer handle -/
  nextId : Nat
  /-- current wall-clock time in milliseconds -/
  now : Nat
  /-- observable event log, most recent first -/
  events : List Ev
deriving DecidableEq, Repr

/-- Register a `setTimeout` callback: fresh handle, absolute fire time. -/
def schedule (s : Sim) (fireAt : Nat) (task : TimerTask) : Sim :=
  { s with timers := s.timers ++ [{ id := s.nextId, fireAt := fireAt, task := task }]
         , nextId := s.nextId + 1 }

/-- `updatePresentationState`: recompute `currentTime` from `startTime`
(the progress-bar and clock updates are DOM chrome). -/
def updatePresentationState (s : Sim) : Sim :=
  { s with currentTime := match s.startTime with
                          | some t0 => s.now - t0
                          | none => 0 }

/-- `PresentationController.executeAction`.  The `showSection` case calls
`window.acePresentation.navigateToSection(action.target)` (passed in as
`nav`); every other recognised case performs a DOM/scene effect, recorded as
an `actionExecuted` event; the `default` branch logs a warning.  The source
has one switch case per recognised name; all non-navigating cases are
observationally identical at the core level, so they share the catch-all
match arm here. -/
def executeAction (nav : Sim → String → Sim) (s : Sim) (a : FlowAction) : Sim :=
  match a.type with
  | ActionType.showSection =>
      nav { s with events := Ev.actionExecuted s.now ActionType.showSection :: s.events }
          (a.target.getD "")
  | ActionType.unknown name =>
      { s with events := Ev.unknownActionWarned name :: s.events }
  | t => { s with events := Ev.actionExecuted s.now t :: s.events }

/-- The `step.actions.forEach(...)` loop of `executeFlowStep`: an action with
a truthy `delay` is scheduled with `setTimeout`, otherwise its effect runs
immediately. -/
def execActions (nav : Sim → String → Sim) (s : Sim) : List FlowAction → Sim
  | [] => s
  | a :: rest =>
      let s := if a.delay.getD 0 != 0
               then schedule s (s.now + a.delay.getD 0) (TimerTask.runAction a)
               else executeAction nav s a
      execActions nav s rest

/-- `PresentationController.executeFlowStep`: schedule/run the step's actions,
update presenter notes (DOM), and — when auto-advance is enabled — schedule a
`nextStep` call after the step's duration.  No handle of any of these timers
is stored anywhere, and nothing is ever cancelled. -/
def executeFlowStep (nav : Sim → String → Sim) (s : Sim) (step : FlowStep) : Sim :=
  let s := execActions nav s step.actions
  if s.autoAdvance then schedule s (s.now + step.duration) TimerTask.autoAdvance else s

/-- `PresentationController.handleSectionChange` (the `sectionChanged`
listener): adopt the section, find the matching flow step, execute it, then
`updatePresentationState`. -/
def handleSectionChange (nav : Sim → String → Sim) (s : Sim) (sectionId : String) : Sim :=
  let s := { s with pcSection := sectionId }
  let s := match listFindIdx (fun st => st.sectionId == sectionId) flowSteps with
           | some i => executeFlowStep nav { s with currentStep := i }
                         (flowSteps.getD i defaultFlowStep)
           | none => s
  updatePresentationState s

/-- Body of `ACEPresentation.navigateToSection(sectionId)`.  Faithful to the
source ordering: `this.currentSection = sectionId` happens *before* the
`sectionChanged` CustomEvent detail `{ sectionId, previousSection:
this.currentSection }` is built, so the recorded `previousSection` is the
section just assigned.  Dispatch is synchronous; the state-relevant listeners
run in registration order: the presentation controller's
`handleSectionChange`, then `ACEPresentation.handleSectionChange`, which
re-enters `navigateToSection` (a no-op, as the section now matches).
`showSection`, `threeScene.transitionToSection` and `updatePresenterNotes`
are DOM/scene effects. -/
def navBody (nav : Sim → String → Sim) (s : Sim) (target : String) : Sim :=
  if s.aceSection == target then s
  else
    let s1 := { s with aceSection := target }
    let s2 := { s1 with events := Ev.sectionChangedSignal target s1.aceSection :: s1.events }
    let s3 := handleSectionChange nav s2 target
    nav s3 target

/-- `navigateToSection` with a re-entrancy budget: the only recursion in the
core is `navigateToSection → handleSectionChange → executeFlowStep →
executeAction (showSection) → navigateToSection`, which is cut off by the
same-section guard after depth at most three; the budget makes that
termination explicit. -/
def navigateToSection : Nat → Sim → String → Sim
  | 0, s, _ => s
  | f + 1, s, target => navBody (navigateToSection f) s target

/-- Default re-entrancy budget, far above the maximal depth any call here
can reach. -/
def DFUEL : Nat := 30

/-- `acePresentation.navigateToSection` as invoked from outside. -/
def navCmd (s : Sim) (target : String) : Sim :=
  navigateToSection DFUEL s target

/-- The target `sections[(currentIndex + 1) % sections.length]` computed by
`ACEPresentation.nextSection`; `indexOf` yields `-1` for a section not in
the list. -/
def nextTarget (s : Sim) : String :=
  SECTIONS.getD ((listIndexOf s.aceSection SECTIONS + 1) % (SECTIONS.length : Int)).toNat "chaos"

/-- The target `sections[(currentIndex - 1 + sections.length) % sections.length]`
computed by `ACEPresentation.previousSection`. -/
def prevTarget (s : Sim) : String :=
  SECTIONS.getD
    ((listIndexOf s.aceSection SECTIONS - 1 + (SECTIONS.length : Int)) % (SECTIONS.length : Int)).toNat
    "chaos"

/-- `ACEPresentation.nextSection` at a given re-entrancy budget. -/
def nextSectionF (f : Nat) (s : Sim) : Sim :=
  navigateToSection f s (nextTarget s)

/-- `ACEPresentation.previousSection` at a given re-entrancy budget. -/
def prevSectionF (f : Nat) (s : Sim) : Sim :=
  navigateToSection f s (prevTarget s)

/-- `nextSection` as invoked from outside. -/
def nextCmd (s : Sim) : Sim := nextSectionF DFUEL s

/-- `previousSection` as invoked from outside. -/
def prevCmd (s : Sim) : Sim := prevSectionF DFUEL s

/-- `PresentationController.nextStep`: advance the step index when not on the
last step and navigate to the new step's section (`showSection`). -/
def pcNextStep (nav : Sim → String → Sim) (s : Sim) : Sim :=
  if s.currentStep < flowSteps.length - 1 then
    let s := { s with currentStep := s.currentStep + 1 }
    nav s ((flowSteps.getD s.currentStep defaultFlowStep).sectionId)
  else s

/-- `PresentationController.previousStep`. -/
def pcPrevStep (nav : Sim → String → Sim) (s : Sim) : Sim :=
  if 0 < s.currentStep then
    let s := { s with currentStep := s.currentStep - 1 }
    nav s ((flowSteps.getD s.currentStep defaultFlowStep).sectionId)
  else s

/-- `PresentationController.gotoStep`. -/
def pcGotoStep (nav : Sim → String → Sim) (s : Sim) (stepIndex : Nat) : Sim :=
  if stepIndex < flowSteps.length then
    nav { s with currentStep := stepIndex }
      ((flowSteps.getD stepIndex defaultFlowStep).sectionId)
  else s

/-- `PresentationController.play`: when not already playing, mark playing,
set `startTime = Date.now() - currentTime`, enable auto-advance and execute
the current flow step. -/
def pcPlay (nav : Sim → String → Sim) (s : Sim) : Sim :=
  if s.isPlaying then s
  else
    let s := { s with isPlaying := true, isPaused := false
                    , startTime := some (s.now - s.currentTime)
                    , autoAdvance := true }
    executeFlowStep nav s (flowSteps.getD s.currentStep defaultFlowStep)

/-- `PresentationController.pause`: only marks paused and disables
auto-advance; already-registered timers are untouched. -/
def pcPause (s : Sim) : Sim :=
  if s.isPlaying then { s with isPaused := true, autoAdvance := false } else s

/-- `PresentationController.stop`: clear the playing flags, zero the elapsed
time and disable auto-advance.  A `playingSetFalse` event records the
observable true-to-false transition of `isPlaying`. -/
def pcStop (s : Sim) : Sim :=
  let evs := if s.isPlaying then [Ev.playingSetFalse s.now] else []
  { s with isPlaying := false, isPaused := false, currentTime := 0
         , autoAdvance := false, events := evs ++ s.events }

/-- `PresentationController.reset`: `stop()`, rewind the step index, show the
first section. -/
def pcReset (nav : Sim → String → Sim) (s : Sim) : Sim :=
  nav { pcStop s with currentStep := 0 } ((flowSteps.getD 0 defaultFlowStep).sectionId)

/-- The pending timer the event loop will run next: smallest fire time, ties
broken by smallest handle (registration order, as in the browser). -/
def earliestTimer : List Timer → Option Timer
  | [] => none
  | t :: ts =>
      match earliestTimer ts with
      | none => some t
      | some u => if u.fireAt < t.fireAt || (u.fireAt == t.fireAt && u.id < t.id)
                  then some u else some t

/-- One event-loop step: remove and run the next pending timer. -/
def fireNext (nav : Sim → String → Sim) (s : Sim) : Sim :=
  match earliestTimer s.timers with
  | none => s
  | some t =>
      let s := { s with timers := s.timers.filter (fun u => u.id != t.id)
                      , now := max s.now t.fireAt }
      match t.task with
      | TimerTask.runAction a => executeAction nav s a
      | TimerTask.autoAdvance => pcNextStep nav s

/-- One event-loop step with the default re-entrancy budget. -/
def fireCmd (s : Sim) : Sim := fireNext (navigateToSection DFUEL) s

/-- Run the event loop until no timer is pending (bounded by `n` steps). -/
def runTimers : Nat → Sim → Sim
  | 0, s => s
  | n + 1, s => if s.timers.isEmpty then s else runTimers n (fireCmd s)

/-- Let wall-clock time pass with no timer firing in between. -/
def advanceTo (s : Sim) (t : Nat) : Sim :=
  { s with now := max s.now t }

/-- `this.flowSteps.reduce((total, step) => total + step.duration, 0)`. -/
def sumDurations : Nat :=
  flowSteps.foldl (fun total step => total + step.duration) 0

/-- `setupPresentationState`: reset the presentation state and derive
`totalDuration` from the flow configuration. -/
def setupPresentationState (s : Sim) : Sim :=
  { s with isPlaying := false, isPaused := false, startTime := none
         , currentTime := 0, totalDuration := sumDurations }

/-- The state after construction and `init()`: both controllers constructed
on section `chaos`, step 0, `setupPresentationState` applied (the
constructor's literal 420000 is immediately recomputed), no timers pending. -/
def initSim : Sim :=
  setupPresentationState
    { aceSection := "chaos", pcSection := "chaos", currentStep := 0
    , isPlaying := false, isPaused := false, startTime := none
    , currentTime := 0, totalDuration := 420000, autoAdvance := false
    , timers := [], nextId := 0, now := 0, events := [] }

/-- The operations the hosting application (keyboard, buttons, demo driver,
event loop) can apply to the presentation core. -/
inductive Op
  | navigate (target : String)
  | nextSec
  | prevSec
  | stepNext
  | stepPrev
  | stepGoto (j : Nat)
  | play
  | pause
  | stop
  | reset
  | fire
  | advance (t : Nat)
deriving DecidableEq, Repr

/-- Apply one operation (each navigation-capable operation uses the default
re-entrancy budget). -/
def applyOp (s : Sim) : Op → Sim
  | Op.navigate t => navCmd s t
  | Op.nextSec => nextCmd s
  | Op.prevSec => prevCmd s
  | Op.stepNext => pcNextStep (navigateToSection DFUEL) s
  | Op.stepPrev => pcPrevStep (navigateToSection DFUEL) s
  | Op.stepGoto j => pcGotoStep (navigateToSection DFUEL) s j
  | Op.play => pcPlay (navigateToSection DFUEL) s
  | Op.pause => pcPause s
  | Op.stop => pcStop s
  | Op.reset => pcReset (navigateToSection DFUEL) s
  | Op.fire => fireCmd s
  | Op.advance t => advanceTo s t

/-- Run a sequence of operations from the initialized state. -/
def runOps (ops : List Op) : Sim :=
  ops.foldl applyOp initSim

/-- The `sectionChanged` events in a log. -/
def signals (s : Sim) : List Ev :=
  s.events.filter fun e => match e with
    | Ev.sectionChangedSignal _ _ => true
    | _ => false

/-- How many times `isPlaying` transitioned from true to false. -/
def countPlayingFalse (s : Sim) : Nat :=
  (s.events.filter fun e => match e with
    | Ev.playingSetFalse _ => true
    | _ => false).length

/-! ## Demo Automation Driver (src/js/demo-mode.js)

The demo driver owns `{isRunning, isPaused, currentStep, stepTimeout}` and a
concrete ten-step script.  Its navigation calls go through
`acePresentation.navigateToSection`; at this model's level a navigation
updates the presentation's current section and is recorded as an event (the
flow cascade it triggers lives in the model above and does not touch any
demo-driver state).  Two script steps additionally register an anonymous
500 ms `setTimeout` that performs the navigation; those timers are not
reachable from `stepTimeout`.
-/

/-- What a pending demo-world timer does when it fires: the step-chain timer
registered in `executeStep` (`this.stepTimeout = setTimeout(() =>
this.nextStep(), step.duration)`), or one of the anonymous 500 ms navigation
timers created inside a step's action. -/
inductive DTask
  | chain
  | navTo (target : String)
deriving DecidableEq, Repr

/-- A pending demo-world `setTimeout` registration. -/
structure DTimer where
  id : Nat
  fireAt : Nat
  task : DTask
deriving DecidableEq, Repr

/-- The core-visible behaviour of one demo step's `action` closure. -/
inductive DEffect
  /-- `acePresentation.navigateToSection(target)` -/
  | navigate (target : String)
  /-- `modalSystem.hideModal()` then `setTimeout(() => navigateToSection(target), delay)` -/
  | scheduleNav (delay : Nat) (target : String)
  /-- `this.reset()` -/
  | resetDemo
  /-- DOM-only interaction (paper/binder/KPI click, button highlight) -/
  | cosmetic
deriving DecidableEq, Repr

/-- One entry of `this.demoSequence`: `{name, action, duration}`. -/
structure DStep where
  name : String
  duration : Nat
  effect : DEffect
deriving DecidableEq, Repr

/-- The script built by `setupDemoSequence`. -/
def demoSequence : List DStep :=
  [ { name := "Show chaos section", duration := 4000, effect := DEffect.navigate "chaos" }
  , { name := "Click a problem paper", duration := 3000, effect := DEffect.cosmetic }
  , { name := "Close modal and transition to valet", duration := 4000
    , effect := DEffect.scheduleNav 500 "valet" }
  , { name := "Transition to manager section", duration := 3000
    , effect := DEffect.navigate "manager" }
  , { name := "Open binder", duration := 3000, effect := DEffect.cosmetic }
  , { name := "Transition to executive section", duration := 4000
    , effect := DEffect.navigate "executive" }
  , { name := "Click KPI card", duration := 3000, effect := DEffect.cosmetic }
  , { name := "Close modal and transition to closing", duration := 4000
    , effect := DEffect.scheduleNav 500 "closing" }
  , { name := "Highlight launch button", duration := 2000, effect := DEffect.cosmetic }
  , { name := "Reset demo", duration := 0, effect := DEffect.resetDemo } ]

/-- Observable events of a demo run. -/
inductive DEv
  /-- `executeStep` ran the action of the step at this index. -/
  | execStep (time : Nat) (idx : Nat)
  /-- the presentation navigated to a (different) section. -/
  | navigated (time : Nat) (target : String)
  /-- `stop()` ran. -/
  | stopped (time : Nat)
deriving DecidableEq, Repr

/-- State of the demo driver plus its timers and the presentation's current
section as the demo observes it. -/
structure DState where
  isRunning : Bool
  isPaused : Bool
  currentStep : Nat
  /-- the handle stored in `this.stepTimeout` (None once cleared) -/
  stepTimeout : Option Nat
  timers : List DTimer
  nextId : Nat
  now : Nat
  aceSection : String
  events : List DEv
deriving DecidableEq, Repr

/-- Demo driver state right after construction and `init()`. -/
def initDemo : DState :=
  { isRunning := false, isPaused := false, currentStep := 0, stepTimeout := none
  , timers := [], nextId := 0, now := 0, aceSection := "chaos", events := [] }

/-- `if (this.stepTimeout) { clearTimeout(this.stepTimeout); this.stepTimeout = null; }` -/
def clearStepTimeout (s : DState) : DState :=
  match s.stepTimeout with
  | none => s
  | some i => { s with timers := s.timers.filter (fun t => t.id != i), stepTimeout := none }

/-- `acePresentation.navigateToSection(target)` as the demo world observes
it: update the current section when it differs. -/
def navigateAce (s : DState) (target : String) : DState :=
  if s.aceSection == target then s
  else { s with aceSection := target, events := DEv.navigated s.now target :: s.events }

/-- `DemoController.stop`: clear the running flags, cancel the pending chain
timer, hide the indicator and undo cosmetic effects (chrome). -/
def demoStop (s : DState) : DState :=
  let s := { s with isRunning := false, isPaused := false }
  let s := clearStepTimeout s
  { s with events := DEv.stopped s.now :: s.events }

/-- `DemoController.reset` (the final step's action): rewind the step index,
undo cosmetic effects, and navigate back to `chaos`.  It does not touch
`isRunning`, `isPaused` or `stepTimeout`. -/
def demoReset (s : DState) : DState :=
  navigateAce { s with currentStep := 0 } "chaos"

/-- Run one demo step's action. -/
def runDemoEffect (s : DState) : DEffect → DState
  | DEffect.navigate t => navigateAce s t
  | DEffect.scheduleNav d t =>
      { s with timers := s.timers ++ [{ id := s.nextId, fireAt := s.now + d, task := DTask.navTo t }]
             , nextId := s.nextId + 1 }
  | DEffect.resetDemo => demoReset s
  | DEffect.cosmetic => s

/-- `DemoController.executeStep`: guarded on `isRunning && !isPaused`; a
missing step (index past the script) means `stop()`; otherwise run the
step's action (inside try/catch in the source) and register the chain timer
for `nextStep` after the step's duration, storing its handle in
`stepTimeout`. -/
def demoExecuteStep (s : DState) : DState :=
  if !s.isRunning || s.isPaused then s
  else
    match demoSequence[s.currentStep]? with
    | none => demoStop s
    | some step =>
        let s := { s with events := DEv.execStep s.now s.currentStep :: s.events }
        let s := runDemoEffect s step.effect
        { s with timers := s.timers ++ [{ id := s.nextId, fireAt := s.now + step.duration, task := DTask.chain }]
               , stepTimeout := some s.nextId
               , nextId := s.nextId + 1 }

/-- `DemoController.nextStep` (the chain timer's callback): advance the index
and either `stop()` past the end of the script or execute the next step. -/
def demoNextStep (s : DState) : DState :=
  if !s.isRunning then s
  else
    let s := { s with currentStep := s.currentStep + 1 }
    if s.currentStep ≥ demoSequence.length then demoStop s
    else demoExecuteStep s

/-- `DemoController.start`: a running driver is fully stopped first; then the
driver restarts at step 0 and executes it immediately. -/
def demoStart (s : DState) : DState :=
  let s := if s.isRunning then demoStop s else s
  let s := { s with isRunning := true, isPaused := false, currentStep := 0 }
  demoExecuteStep s

/-- `DemoController.pause`: no-op unless running; cancels the pending chain
timer and leaves `currentStep` unchanged. -/
def demoPause (s : DState) : DState :=
  if !s.isRunning then s
  else clearStepTimeout { s with isPaused := true }

/-- `DemoController.resume`: no-op unless running and paused; re-executes the
current step. -/
def demoResume (s : DState) : DState :=
  if !s.isRunning || !s.isPaused then s
  else demoExecuteStep { s with isPaused := false }

/-- `DemoController.skipToStep`: guarded on running and a valid index; cancels
the pending chain timer and executes the requested step. -/
def demoSkipToStep (s : DState) (stepIndex : Nat) : DState :=
  if !s.isRunning || stepIndex ≥ demoSequence.length then s
  else demoExecuteStep { clearStepTimeout s with currentStep := stepIndex }

/-- The pending demo-world timer the event loop will run next. -/
def dearliest : List DTimer → Option DTimer
  | [] => none
  | t :: ts =>
      match dearliest ts with
      | none => some t
      | some u => if u.fireAt < t.fireAt || (u.fireAt == t.fireAt && u.id < t.id)
                  then some u else some t

/-- One demo-world event-loop step. -/
def demoFire (s : DState) : DState :=
  match dearliest s.timers with
  | none => s
  | some t =>
      let s := { s with timers := s.timers.filter (fun u => u.id != t.id)
                      , now := max s.now t.fireAt }
      match t.task with
      | DTask.chain => demoNextStep s
      | DTask.navTo tgt => navigateAce s tgt

/-- Let wall-clock time pass in the demo world. -/
def demoAdvanceTo (s : DState) (t : Nat) : DState :=
  { s with now := max s.now t }

/-- Fire `n` event-loop steps. -/
def fireN : Nat → DState → DState
  | 0, s => s
  | n + 1, s => fireN n (demoFire s)

/-- The operations the hosting application and the event loop can apply to
the demo driver. -/
inductive DemoOp
  | start
  | stop
  | pause
  | resume
  | skipTo (j : Nat)
  | fire
  | advance (t : Nat)
deriving DecidableEq, Repr

/-- Apply one demo operation. -/
def applyDemoOp (s : DState) : DemoOp → DState
  | DemoOp.start => demoStart s
  | DemoOp.stop => demoStop s
  | DemoOp.pause => demoPause s
  | DemoOp.resume => demoResume s
  | DemoOp.skipTo j => demoSkipToStep s j
  | DemoOp.fire => demoFire s
  | DemoOp.advance t => demoAdvanceTo s t

/-- Run a sequence of demo operations from the initialized driver. -/
def runDemo (ops : List DemoOp) : DState :=
  ops.foldl applyDemoOp initDemo

/-- How many times the step at index `k` had its action executed. -/
def execCountAt (s : DState) (k : Nat) : Nat :=
  (s.events.filter fun e => match e with
    | DEv.execStep _ i => i == k
    | _ => false).length

/-- Whether a demo-world timer is the step-chain timer (the one whose handle
lives in `stepTimeout`). -/
def isChain (t : DTimer) : Bool :=
  match t.task with
  | DTask.chain => true
  | _ => false

/-- The pending step-chain timers. -/
def chainTimers (s : DState) : List DTimer :=
  s.timers.filter isChain

/-- Scenario C state (spec §8): `start()`, the first two chain timers fire
(reaching step 2 at t = 7000 with its chain timer due at t = 11000), time
passes to t = 8000, `pause()`, `resume()`. -/
def c2state : DState :=
  demoResume (demoPause (demoAdvanceTo (fireN 2 (demoStart initDemo)) 8000))

/-- The demo run left alone: `start()` and every pending timer fired in due
order until just past the final "Reset demo" step's own chain timer
(12 event-loop steps: 10 chain firings and the two anonymous navigation
timers). -/
def c3state : DState :=
  fireN 12 (demoStart initDemo)

/-! ## Failure semantics of the Flow Step Scheduler

`executeFlowStep` runs the undelayed actions synchronously inside
`step.actions.forEach(...)` and registers the delayed ones with `setTimeout`;
neither `executeFlowStep` nor `executeAction` contains any `try`/`catch`.
An effect's outcome depends on the external environment (DOM, data store,
scene), modelled as an oracle `throws : ActionType → Bool`.  A synchronous
throw propagates out of the `forEach` callback and aborts the loop; a throw
inside a timer callback ends only that callback's task.  The demo driver's
`executeStep`, by contrast, wraps its action in `try`/`catch` and schedules
the next step regardless. -/

/-- Observable outcome of one scheduler run for the failure-semantics
analysis. -/
structure ERun where
  /-- effects that ran to completion, most recent first -/
  executed : List ActionType := []
  /-- effects that raised -/
  threw : List ActionType := []
  /-- unknown action names logged by the `default` branch -/
  warned : List String := []
  /-- delayed actions whose timers got registered, in order -/
  scheduled : List (Nat × FlowAction) := []
deriving DecidableEq, Repr

/-- `executeAction` under the environment oracle: the switch dispatches on the
action name; an unknown name is logged (`console.warn`) and never throws; a
recognised effect either completes or raises, and the raise propagates to the
caller (there is no `try`/`catch` in the presentation controller). -/
def effectRun (throws : ActionType → Bool) (r : ERun) (a : FlowAction) : Except ERun ERun :=
  match a.type with
  | ActionType.unknown n => Except.ok { r with warned := n :: r.warned }
  | t => if throws t then Except.error { r with threw := t :: r.threw }
         else Except.ok { r with executed := t :: r.executed }

/-- The `step.actions.forEach(...)` loop of `executeFlowStep` under the
oracle: delayed actions are registered; an undelayed action's effect runs
synchronously, and if it raises, the loop aborts — the remaining actions are
neither run nor scheduled. -/
def schedActions (throws : ActionType → Bool) (r : ERun) : List FlowAction → Except ERun ERun
  | [] => Except.ok r
  | a :: rest =>
      if a.delay.getD 0 != 0 then
        schedActions throws { r with scheduled := r.scheduled ++ [(a.delay.getD 0, a)] } rest
      else
        match effectRun throws r a with
        | Except.ok r2 => schedActions throws r2 rest
        | Except.error r2 => Except.error r2

/-- Every registered delayed action later fires in its own timer task: a
raise inside one task ends that task alone and the event loop proceeds to
the other timers. -/
def fireScheduled (throws : ActionType → Bool) (r : ERun) : ERun :=
  r.scheduled.foldl
    (fun acc p => match effectRun throws acc p.2 with
                  | Except.ok r2 => r2
                  | Except.error r2 => r2)
    r

/-- Number of effects attempted in a run (completed, raised, or logged as
unknown). -/
def attemptsOf (r : ERun) : Nat :=
  r.executed.length + r.threw.length + r.warned.length

/-- The demo driver's `executeStep` action boundary (demo-mode.js lines
230-235): `try { step.action() } catch (error) { console.error(...) }` — a
raise is caught here, so control always reaches the following
`this.stepTimeout = setTimeout(...)` statement. -/
def demoTryStepRun (throws : ActionType → Bool) (r : ERun) (a : FlowAction) : ERun :=
  match effectRun throws r a with
  | Except.ok r2 => r2
  | Except.error r2 => r2

/-- The demo chain `executeStep → chain timer → nextStep → executeStep → …`
restricted to its action boundaries: every step's action is attempted in
sequence, each behind its own `try`/`catch`. -/
def demoRunSteps (throws : ActionType → Bool) (r : ERun) : List FlowAction → ERun
  | [] => r
  | a :: rest => demoRunSteps throws (demoTryStepRun throws r a) rest

/-! ## Named scenario states used by the theorems -/

/-- Spec §8 Scenario A, first call: `navigateTo("valet")` at t = 0. -/
def c1s1 : Sim := navCmd initSim "valet"

/-- Spec §8 Scenario A, second call: `navigateTo("manager")` at t = 500 ms,
immediately after it returns. -/
def c1s3 : Sim := navCmd (advanceTo c1s1 500) "manager"

/-- Scenario A run to quiescence: every pending timer fired in due order. -/
def c1final : Sim := runTimers 20 c1s3

/-- Does this timer hold the valet step's delayed `animatePaperToBinder`
action? -/
def isPaperToBinderTimer (t : Timer) : Bool :=
  match t.task with
  | TimerTask.runAction a => a.type == ActionType.animatePaperToBinder
  | _ => false

/-- State after a single `navigateToSection("valet")` from the initialized
presentation. -/
def c4state : Sim := navCmd initSim "valet"

/-- Spec §8 Scenario B: `play()` at t = 0 from the initialized state, then
the event loop runs until no timer is pending (25 timers in all, well within
the bound of 40). -/
def c6final : Sim := runTimers 40 (pcPlay (navigateToSection DFUEL) initSim)

/-- `navigateToSection` into an arbitrary target from the initialized state,
at any positive re-entrancy budget (all inner navigation calls hit the
same-section guard). -/
def c10nav (f : Nat) (target : String) : Sim :=
  navigateToSection (f + 1) initSim target

/-- Timer-service sanity for the demo world: every pending handle is below
the fresh-handle counter and handles are pairwise distinct. -/
def TimersOk (s : DState) : Prop :=
  (∀ t ∈ s.timers, t.id < s.nextId)
  ∧ s.timers.Pairwise (fun a b => a.id ≠ b.id)

/-- No step-chain timer among these pending timers. -/
def ChainFree (l : List DTimer) : Prop :=
  ∀ t ∈ l, isChain t = false

/-- The demo driver's timer invariant: handles are sane, no chain timer is
pending while the driver is stopped or paused, and every pending chain
timer's handle is the one stored in `stepTimeout` (which, with handle
distinctness, bounds the number of pending chain timers by one). -/
def DemoInv (s : DState) : Prop :=
  TimersOk s
  ∧ (s.isRunning = false → ChainFree s.timers)
  ∧ (s.isPaused = true → ChainFree s.timers)
  ∧ (∀ t ∈ s.timers, isChain t = true → s.stepTimeout = some t.id)

/-! ## Theorems -/

/-- C1: the claim states that after `navigateTo(target)` returns having left
a section, none of the abandoned section's scheduled-action timers ever fires
its effect.  The code violates this: `handleSectionChange`/`executeFlowStep`
store no timer handle and never call `clearTimeout`, so on Scenario A
(`navigateTo("valet")` at t = 0, `navigateTo("manager")` at t = 500) the
valet run's `animatePaperToBinder` timer is still pending when
`navigateTo("manager")` has returned, and its effect executes at t = 8000. -/
theorem c1_abandoned_valet_timer_fires :
    c1s3.aceSection = "manager"
    ∧ (c1s3.timers.any isPaperToBinderTimer) = true
    ∧ Ev.actionExecuted 8000 ActionType.animatePaperToBinder ∈ c1final.events := by
  decide

/-- C2 counterexample: on Scenario C (`start()`, run to step 2, `pause()`
while step 2's post-delay timer is pending, `resume()`), the claim says step
2's action executes exactly once in total; in the code `resume()` calls
`executeStep()`, which runs `step.action()` again, so it executes twice. -/
theorem c2_resume_reruns_step_action :
    execCountAt c2state 2 = 2 ∧ ¬ execCountAt c2state 2 = 1 := by
  decide

/-- C2 amended: in the same scenario, step 2's action executes exactly twice
(once when the step was first reached at t = 7000, once re-run by `resume()`
at t = 8000); the re-scheduled chain timer is due at t = 12000 — the full
4000 ms post-delay measured from the `resume()` call, not from the original
execution — and when it fires, step 3 begins (exactly once) at t = 12000. -/
theorem c2_resume_semantics :
    execCountAt c2state 2 = 2
    ∧ (c2state.timers.any fun t => isChain t && t.fireAt == 12000) = true
    ∧ execCountAt (fireN 3 c2state) 3 = 1
    ∧ DEv.execStep 12000 3 ∈ (fireN 3 c2state).events
    ∧ (fireN 3 c2state).currentStep = 3 := by
  decide

/-- C3: the claim (and spec §4.3) say the final DemoStep's action calls
`stop()`, leaving `isRunning == false` with no pending step timer.  In the
code the "Reset demo" step's action calls `this.reset()`, which rewinds
`currentStep` to 0 and navigates to `chaos` but leaves `isRunning` true; the
step's own zero-delay chain timer then advances to step 1 and the script
keeps replaying: after the full run the driver is still running, on step 1,
with a chain timer pending, having executed step 1 a second time. -/
theorem c3_demo_final_step_loops :
    c3state.isRunning = true
    ∧ c3state.currentStep = 1
    ∧ (c3state.timers.any isChain) = true
    ∧ execCountAt c3state 9 = 1
    ∧ execCountAt c3state 1 = 2 := by
  decide

/-- C4: the claim says the `sectionChanged` signal emitted by
`navigateTo(target)` carries `previousSection` equal to the section current
immediately before the call.  The code assigns `this.currentSection =
sectionId` *before* building the event detail `{ sectionId, previousSection:
this.currentSection }`, so navigating from the initial `chaos` to `valet`
emits `previousSection = "valet"`, not `"chaos"`. -/
theorem c4_signal_previous_equals_new :
    signals c4state = [Ev.sectionChangedSignal "valet" "valet"]
    ∧ initSim.aceSection = "chaos"
    ∧ ("valet" : String) ≠ "chaos" := by
  decide

/-- C5: `next` and `previous` wrap around the five-section list: from each of
the five sections, five applications of `nextSection` return to it, and one
application of `previousSection` from the initial `chaos` lands on
`closing`. -/
theorem c5_cyclic_navigation :
    (∀ t ∈ SECTIONS,
      (nextCmd (nextCmd (nextCmd (nextCmd (nextCmd (navCmd initSim t)))))).aceSection = t)
    ∧ (prevCmd initSim).aceSection = "closing" := by
  constructor
  · intro t ht
    fin_cases ht <;> decide
  · decide

/-- C5 witness: the wrap-around theorem instantiated at `valet`. -/
theorem c5_cyclic_navigation_witness :
    ("valet" ∈ SECTIONS)
    ∧ (nextCmd (nextCmd (nextCmd (nextCmd (nextCmd (navCmd initSim "valet")))))).aceSection
        = "valet" :=
  ⟨by decide, c5_cyclic_navigation.1 "valet" (by decide)⟩

/-- C6 counterexample: on Scenario B (`play()` at t = 0, every timer fired in
due order until quiescence), the claim says `isPlaying` becomes false exactly
once after the final step's duration; in the code nothing on the auto-advance
path ever calls `stop()`, so `isPlaying` never transitions to false. -/
theorem c6_isPlaying_never_false :
    countPlayingFalse c6final = 0 ∧ c6final.timers = [] := by
  decide

/-- C6 amended: after the simulated advance through every step, the
presentation rests on `closing` at step 4 with no timer pending — the final
auto-advance `nextStep` at t = 420000 is a no-op, so no `next()` overshoots
past `closing` — but `isPlaying` remains true: the auto-advance chain never
sets it to false. -/
theorem c6_autoplay_no_overshoot :
    c6final.currentStep = 4
    ∧ c6final.aceSection = "closing"
    ∧ c6final.pcSection = "closing"
    ∧ c6final.isPlaying = true
    ∧ countPlayingFalse c6final = 0
    ∧ c6final.timers = [] := by
  decide

/-- Helper: a navigation to the already-current section is a no-op at every
re-entrancy budget (the `if (this.currentSection === sectionId) return;`
guard). -/
theorem navStop (f : Nat) (s : Sim) (t : String) (h : s.aceSection = t) :
    navigateToSection f s t = s := by
  cases f with
  | zero => rfl
  | succ f => simp [navigateToSection, navBody, h]

/-- Helper: navigating from any state to a different section that is in the
flow configuration ends with that section current. -/
theorem nav_known_aceSection (f : Nat) (s : Sim) (t : String) (ht : t ∈ SECTIONS)
    (h0 : s.aceSection ≠ t) :
    (navigateToSection (f + 1) s t).aceSection = t := by
  fin_cases ht <;> cases hA : s.autoAdvance <;>
    simp [navigateToSection, navBody, handleSectionChange, listFindIdx, flowSteps,
      executeFlowStep, execActions, executeAction, schedule, updatePresentationState,
      navStop, h0, hA]

/-- Helper: navigating to a string outside the five configured sections still
updates the current section, emits the `sectionChanged` signal (with both
payload fields equal to the target) and schedules nothing, because
`findIndex` comes back empty. -/
theorem nav_unknown_spec (f : Nat) (s : Sim) (target : String)
    (h0 : s.aceSection ≠ target)
    (h1 : target ≠ "chaos") (h2 : target ≠ "valet") (h3 : target ≠ "manager")
    (h4 : target ≠ "executive") (h5 : target ≠ "closing") :
    (navigateToSection (f + 1) s target).aceSection = target
    ∧ (navigateToSection (f + 1) s target).events
        = Ev.sectionChangedSignal target target :: s.events
    ∧ (navigateToSection (f + 1) s target).timers = s.timers := by
  have e1 : (("chaos" : String) == target) = false := by simp [Ne.symm h1]
  have e2 : (("valet" : String) == target) = false := by simp [Ne.symm h2]
  have e3 : (("manager" : String) == target) = false := by simp [Ne.symm h3]
  have e4 : (("executive" : String) == target) = false := by simp [Ne.symm h4]
  have e5 : (("closing" : String) == target) = false := by simp [Ne.symm h5]
  refine ⟨?_, ?_, ?_⟩ <;>
    simp [navigateToSection, navBody, handleSectionChange, listFindIdx, flowSteps,
      updatePresentationState, navStop, h0, e1, e2, e3, e4, e5]

/-- C10: `navigateToSection` performs no membership check: any string
different from the current section — here, any string outside the five
SectionIds — becomes the current section and the `sectionChanged` event is
dispatched; a subsequent `nextSection` from such an unknown section lands on
`chaos` and a `previousSection` lands on `executive`, because `indexOf`
returns `-1`. -/
theorem c10_no_membership_check (f : Nat) (target : String) (h : target ∉ SECTIONS) :
    (c10nav f target).aceSection = target
    ∧ Ev.sectionChangedSignal target target ∈ (c10nav f target).events
    ∧ (nextSectionF (f + 1) (c10nav f target)).aceSection = "chaos"
    ∧ (prevSectionF (f + 1) (c10nav f target)).aceSection = "executive" := by
  simp only [SECTIONS, List.mem_cons, List.mem_singleton, not_or] at h
  obtain ⟨h1, h2, h3, h4, h5, -⟩ := h
  have h0 : initSim.aceSection ≠ target := by
    have e : initSim.aceSection = "chaos" := rfl
    rw [e]; exact Ne.symm h1
  obtain ⟨ha, he, htm⟩ := nav_unknown_spec f initSim target h0 h1 h2 h3 h4 h5
  have ha' : (c10nav f target).aceSection = target := ha
  have e1 : (("chaos" : String) == target) = false := by simp [Ne.symm h1]
  have e2 : (("valet" : String) == target) = false := by simp [Ne.symm h2]
  have e3 : (("manager" : String) == target) = false := by simp [Ne.symm h3]
  have e4 : (("executive" : String) == target) = false := by simp [Ne.symm h4]
  have e5 : (("closing" : String) == target) = false := by simp [Ne.symm h5]
  have hNext : nextTarget (c10nav f target) = "chaos" := by
    simp [nextTarget, listIndexOf, listFindIdx, SECTIONS, ha', e1, e2, e3, e4, e5]
  have hPrev : prevTarget (c10nav f target) = "executive" := by
    simp [prevTarget, listIndexOf, listFindIdx, SECTIONS, ha', e1, e2, e3, e4, e5]
  refine ⟨ha', ?_, ?_, ?_⟩
  · have he' : (c10nav f target).events = Ev.sectionChangedSignal target target :: initSim.events := he
    rw [he']; exact List.mem_cons_self _ _
  · rw [nextSectionF, hNext]
    refine nav_known_aceSection f _ "chaos" (by decide) ?_
    rw [ha']; exact h1
  · rw [prevSectionF, hPrev]
    refine nav_known_aceSection f _ "executive" (by decide) ?_
    rw [ha']; exact h4

/-- C10 witness: the no-membership-check theorem instantiated at the unknown
section string `lobby`. -/
theorem c10_no_membership_check_witness :
    ("lobby" ∉ SECTIONS)
    ∧ ((c10nav 0 "lobby").aceSection = "lobby"
       ∧ Ev.sectionChangedSignal "lobby" "lobby" ∈ (c10nav 0 "lobby").events
       ∧ (nextSectionF (0 + 1) (c10nav 0 "lobby")).aceSection = "chaos"
       ∧ (prevSectionF (0 + 1) (c10nav 0 "lobby")).aceSection = "executive") :=
  ⟨by decide, c10_no_membership_check 0 "lobby" (by decide)⟩

/-- C7 counterexample: the Flow Step Scheduler contains no `try`/`catch`.
With an environment in which the chaos step's undelayed `showSection` effect
raises, the `forEach` of `executeFlowStep` aborts at that throw: the run ends
in an uncaught error with zero delayed actions registered, so the remaining
three scheduled actions of the same run never execute — the claimed
per-action error boundary does not exist there. -/
theorem c7_throw_aborts_remaining :
    schedActions (fun t => t == ActionType.showSection)
        ⟨[], [], [], []⟩ ((flowSteps.getD 0 defaultFlowStep).actions)
      = Except.error ⟨[], [ActionType.showSection], [], []⟩ := by
  rfl

/-- C7 amended: (1) an unknown action name is logged by the switch's default
branch and skipped, and the run proceeds to the remaining actions; (2) every
*delayed* action that got registered fires in its own timer task, so a raise
in one leaves the attempts of all the others intact; (3) likewise every demo
step's action is attempted behind the demo driver's per-action `try`/`catch`;
but (4) an undelayed action's effect that raises propagates out of the
scheduler's `forEach` uncaught and prevents the remaining actions of the same
run from being executed or scheduled. -/
theorem c7_failure_semantics :
    (∀ (throws : ActionType → Bool) (r : ERun) (n : String) (tg : Option String)
        (rest : List FlowAction),
        schedActions throws r ({ type := ActionType.unknown n, target := tg, delay := none } :: rest)
          = schedActions throws { r with warned := n :: r.warned } rest)
    ∧ (∀ (throws : ActionType → Bool) (r : ERun),
        attemptsOf (fireScheduled throws r) = attemptsOf r + r.scheduled.length)
    ∧ (∀ (throws : ActionType → Bool) (r : ERun) (l : List FlowAction),
        attemptsOf (demoRunSteps throws r l) = attemptsOf r + l.length)
    ∧ (∀ (throws : ActionType → Bool) (r r2 : ERun) (a : FlowAction) (rest : List FlowAction),
        a.delay = none → effectRun throws r a = Except.error r2 →
        schedActions throws r (a :: rest) = Except.error r2) := by
  have hstep : ∀ (throws : ActionType → Bool) (acc : ERun) (a : FlowAction),
      attemptsOf (match effectRun throws acc a with
                  | Except.ok x => x
                  | Except.error x => x) = attemptsOf acc + 1 := by
    intro throws acc a
    rcases a with ⟨ty, tg, dl⟩
    cases ty <;>
      simp only [effectRun] <;>
      (try split_ifs) <;>
      simp [attemptsOf] <;>
      omega
  refine ⟨?_, ?_, ?_, ?_⟩
  · intro throws r n tg rest
    simp [schedActions, effectRun]
  · intro throws r
    have H : ∀ (l : List (Nat × FlowAction)) (acc : ERun),
        attemptsOf (l.foldl
          (fun acc p => match effectRun throws acc p.2 with
                        | Except.ok r2 => r2
                        | Except.error r2 => r2) acc) = attemptsOf acc + l.length := by
      intro l
      induction l with
      | nil => intro acc; simp
      | cons p rest ih =>
          intro acc
          simp only [List.foldl_cons, List.length_cons]
          rw [ih, hstep]
          omega
    exact H r.scheduled r
  · intro throws r l
    induction l generalizing r with
    | nil => simp [demoRunSteps]
    | cons a rest ih =>
        simp only [demoRunSteps, List.length_cons, demoTryStepRun]
        rw [ih, hstep]
        omega
  · intro throws r r2 a rest hdl herr
    simp [schedActions, hdl, herr]

/-- C7 witness: the amended failure-semantics theorem's abort clause applied
to the chaos step's undelayed `showSection` action under a raising
environment. -/
theorem c7_failure_semantics_witness :
    schedActions (fun t => t == ActionType.showSection) ⟨[], [], [], []⟩
        ({ type := ActionType.showSection, target := some "chaos", delay := none }
          :: [{ type := ActionType.highlight3DPapers, target := none, delay := some 2000 }])
      = Except.error ⟨[], [ActionType.showSection], [], []⟩ :=
  c7_failure_semantics.2.2.2 (fun t => t == ActionType.showSection)
    ⟨[], [], [], []⟩ ⟨[], [ActionType.showSection], [], []⟩
    { type := ActionType.showSection, target := some "chaos", delay := none }
    [{ type := ActionType.highlight3DPapers, target := none, delay := some 2000 }]
    rfl rfl
/-- Helper: `updatePresentationState` only rewrites `currentTime`. -/
theorem td_update (s : Sim) :
    (updatePresentationState s).totalDuration = s.totalDuration := rfl

/-- Helper: scheduling a timer does not touch `totalDuration`. -/
theorem td_schedule (s : Sim) (t : Nat) (k : TimerTask) :
    (schedule s t k).totalDuration = s.totalDuration := rfl

/-- Helper: `executeAction` preserves `totalDuration` whenever the navigation
callback it may invoke does. -/
theorem td_executeAction (nav : Sim → String → Sim)
    (h : ∀ s t, (nav s t).totalDuration = s.totalDuration) (s : Sim) (a : FlowAction) :
    (executeAction nav s a).totalDuration = s.totalDuration := by
  rcases a with ⟨ty, tg, dl⟩
  cases ty <;> simp [executeAction, h]

/-- Helper: the actions loop preserves `totalDuration`. -/
theorem td_execActions (nav : Sim → String → Sim)
    (h : ∀ s t, (nav s t).totalDuration = s.totalDuration) :
    ∀ (l : List FlowAction) (s : Sim),
      (execActions nav s l).totalDuration = s.totalDuration := by
  intro l
  induction l with
  | nil => intro s; simp [execActions]
  | cons a rest ih =>
      intro s
      simp only [execActions]
      rw [ih]
      split
      · exact td_schedule ..
      · exact td_executeAction nav h s a

/-- Helper: `executeFlowStep` preserves `totalDuration`. -/
theorem td_executeFlowStep (nav : Sim → String → Sim)
    (h : ∀ s t, (nav s t).totalDuration = s.totalDuration) (s : Sim) (step : FlowStep) :
    (executeFlowStep nav s step).totalDuration = s.totalDuration := by
  simp only [executeFlowStep]
  split
  · rw [td_schedule]; exact td_execActions nav h step.actions s
  · exact td_execActions nav h step.actions s

/-- Helper: `handleSectionChange` preserves `totalDuration`. -/
theorem td_handleSectionChange (nav : Sim → String → Sim)
    (h : ∀ s t, (nav s t).totalDuration = s.totalDuration) (s : Sim) (sectionId : String) :
    (handleSectionChange nav s sectionId).totalDuration = s.totalDuration := by
  simp only [handleSectionChange]
  split
  · rw [td_update, td_executeFlowStep nav h]
  · rw [td_update]

/-- Helper: `navBody` preserves `totalDuration`. -/
theorem td_navBody (nav : Sim → String → Sim)
    (h : ∀ s t, (nav s t).totalDuration = s.totalDuration) (s : Sim) (target : String) :
    (navBody nav s target).totalDuration = s.totalDuration := by
  simp only [navBody]
  split
  · rfl
  · rw [h, td_handleSectionChange nav h]

/-- Helper: `navigateToSection` preserves `totalDuration` at every budget. -/
theorem td_navigate : ∀ (f : Nat) (s : Sim) (t : String),
    (navigateToSection f s t).totalDuration = s.totalDuration := by
  intro f
  induction f with
  | zero => intro s t; rfl
  | succ f ih =>
      intro s t
      simp only [navigateToSection]
      exact td_navBody _ ih s t

/-- Helper: `nextStep`/`previousStep`/`gotoStep` preserve `totalDuration`. -/
theorem td_pcSteps (nav : Sim → String → Sim)
    (h : ∀ s t, (nav s t).totalDuration = s.totalDuration) (s : Sim) (j : Nat) :
    (pcNextStep nav s).totalDuration = s.totalDuration
    ∧ (pcPrevStep nav s).totalDuration = s.totalDuration
    ∧ (pcGotoStep nav s j).totalDuration = s.totalDuration := by
  refine ⟨?_, ?_, ?_⟩ <;> simp only [pcNextStep, pcPrevStep, pcGotoStep] <;> split <;>
    simp [h]

/-- Helper: play, pause, stop, reset and the event loop preserve
`totalDuration`. -/
theorem td_lifecycle (nav : Sim → String → Sim)
    (h : ∀ s t, (nav s t).totalDuration = s.totalDuration) (s : Sim) :
    (pcPlay nav s).totalDuration = s.totalDuration
    ∧ (pcPause s).totalDuration = s.totalDuration
    ∧ (pcStop s).totalDuration = s.totalDuration
    ∧ (pcReset nav s).totalDuration = s.totalDuration
    ∧ (fireNext nav s).totalDuration = s.totalDuration := by
  refine ⟨?_, ?_, ?_, ?_, ?_⟩
  · simp only [pcPlay]
    split
    · rfl
    · rw [td_executeFlowStep nav h]
  · simp only [pcPause]; split <;> rfl
  · rfl
  · simp only [pcReset]; rw [h]; rfl
  · simp only [fireNext]
    split
    · rfl
    · split
      · rw [td_executeAction nav h]
      · exact (td_pcSteps nav h _ 0).1

/-- C8: after initialization `presentationState.totalDuration` equals the sum
of the five flow-step durations, 420000 ms, and no operation — navigation,
step movement, play, pause, stop, reset, timer firing or passage of time —
ever changes it; in particular it is 420000 in every reachable state. -/
theorem c8_totalDuration_invariant :
    initSim.totalDuration = 420000
    ∧ (∀ (s : Sim) (op : Op), (applyOp s op).totalDuration = s.totalDuration)
    ∧ (∀ ops : List Op, (runOps ops).totalDuration = 420000) := by
  have hnav : ∀ (s : Sim) (t : String),
      (navigateToSection DFUEL s t).totalDuration = s.totalDuration :=
    fun s t => td_navigate DFUEL s t
  have hop : ∀ (s : Sim) (op : Op), (applyOp s op).totalDuration = s.totalDuration := by
    intro s op
    cases op with
    | navigate t => exact td_navigate DFUEL s t
    | nextSec => exact td_navigate DFUEL s _
    | prevSec => exact td_navigate DFUEL s _
    | stepNext => exact (td_pcSteps _ hnav s 0).1
    | stepPrev => exact (td_pcSteps _ hnav s 0).2.1
    | stepGoto j => exact (td_pcSteps _ hnav s j).2.2
    | play => exact (td_lifecycle _ hnav s).1
    | pause => exact (td_lifecycle _ hnav s).2.1
    | stop => exact (td_lifecycle _ hnav s).2.2.1
    | reset => exact (td_lifecycle _ hnav s).2.2.2.1
    | fire => exact (td_lifecycle _ hnav s).2.2.2.2
    | advance t => rfl
  refine ⟨rfl, hop, ?_⟩
  have H : ∀ (l : List Op) (s : Sim),
      (l.foldl applyOp s).totalDuration = s.totalDuration := by
    intro l
    induction l with
    | nil => intro s; rfl
    | cons op rest ih => intro s; rw [List.foldl_cons, ih, hop]
  intro ops
  rw [runOps, H]
  rfl

theorem chainFree_filter {l : List DTimer} (p : DTimer → Bool) (h : ChainFree l) :
    ChainFree (l.filter p) := by
  intro t ht
  exact h t (List.mem_of_mem_filter ht)

theorem chainFree_absurd {l : List DTimer} (h : ChainFree l) :
    ∀ t ∈ l, isChain t = true → False := by
  intro t ht hc
  rw [h t ht] at hc
  exact Bool.noConfusion hc

theorem clear_proj (s : DState) :
    (clearStepTimeout s).isRunning = s.isRunning
    ∧ (clearStepTimeout s).isPaused = s.isPaused
    ∧ (clearStepTimeout s).currentStep = s.currentStep
    ∧ (clearStepTimeout s).nextId = s.nextId
    ∧ (clearStepTimeout s).now = s.now := by
  cases h : s.stepTimeout <;> simp [clearStepTimeout, h]

theorem clear_chainFree (s : DState)
    (h5 : ∀ t ∈ s.timers, isChain t = true → s.stepTimeout = some t.id) :
    ChainFree (clearStepTimeout s).timers := by
  cases h : s.stepTimeout with
  | none =>
      simp only [clearStepTimeout, h]
      intro t ht
      by_contra hc
      have := h5 t ht (by revert hc; cases isChain t <;> simp)
      rw [h] at this
      exact Option.noConfusion this
  | some i =>
      simp only [clearStepTimeout, h]
      intro t ht
      rcases List.mem_filter.mp ht with ⟨htm, hid⟩
      by_contra hc
      have hchain : isChain t = true := by revert hc; cases isChain t <;> simp
      have := h5 t htm hchain
      rw [h] at this
      have : t.id = i := by injection this.symm
      simp [this] at hid

theorem clear_timersOk (s : DState) (h : TimersOk s) :
    (∀ t ∈ (clearStepTimeout s).timers, t.id < s.nextId)
    ∧ (clearStepTimeout s).timers.Pairwise (fun a b => a.id ≠ b.id) := by
  cases hh : s.stepTimeout with
  | none => simpa [clearStepTimeout, hh] using h
  | some i =>
      simp only [clearStepTimeout, hh]
      refine ⟨fun t ht => h.1 t (List.mem_of_mem_filter ht), ?_⟩
      exact h.2.sublist (List.filter_sublist _)

theorem demoStop_inv (s : DState)
    (hok : TimersOk s)
    (h5 : ∀ t ∈ s.timers, isChain t = true → s.stepTimeout = some t.id) :
    DemoInv (demoStop s)
    ∧ ChainFree (demoStop s).timers
    ∧ (demoStop s).nextId = s.nextId
    ∧ (demoStop s).isRunning = false
    ∧ (demoStop s).currentStep = s.currentStep := by
  set s1 : DState := { s with isRunning := false, isPaused := false } with hs1
  have h5' : ∀ t ∈ s1.timers, isChain t = true → s1.stepTimeout = some t.id := h5
  have hok1 : TimersOk s1 := hok
  have hcf : ChainFree (clearStepTimeout s1).timers := clear_chainFree s1 h5'
  have hok' := clear_timersOk s1 hok1
  have hproj := clear_proj s1
  have htimers : (demoStop s).timers = (clearStepTimeout s1).timers := by
    simp [demoStop]
  have hnid : (demoStop s).nextId = s.nextId := by
    simp [demoStop, hproj.2.2.2.1]
  have hrun : (demoStop s).isRunning = false := by
    simp [demoStop, hproj.1]
  have hpau : (demoStop s).isPaused = false := by
    simp [demoStop, hproj.2.1]
  have hstep : (demoStop s).currentStep = s.currentStep := by
    simp [demoStop, hproj.2.2.1]
  refine ⟨⟨⟨?_, ?_⟩, ?_, ?_, ?_⟩, ?_, hnid, hrun, hstep⟩
  · rw [htimers, hnid]; exact hok'.1
  · rw [htimers]; exact hok'.2
  · intro _; rw [htimers]; exact hcf
  · intro _; rw [htimers]; exact hcf
  · intro t ht hc
    rw [htimers] at ht
    exact absurd hc (by simp [hcf t ht])
  · rw [htimers]; exact hcf
theorem runDemoEffect_facts (s : DState) (eff : DEffect)
    (hok : TimersOk s) (hcf : ChainFree s.timers) :
    (∀ t ∈ (runDemoEffect s eff).timers, t.id < (runDemoEffect s eff).nextId)
    ∧ (runDemoEffect s eff).timers.Pairwise (fun a b => a.id ≠ b.id)
    ∧ ChainFree (runDemoEffect s eff).timers
    ∧ s.nextId ≤ (runDemoEffect s eff).nextId
    ∧ (runDemoEffect s eff).isRunning = s.isRunning
    ∧ (runDemoEffect s eff).isPaused = s.isPaused
    ∧ (runDemoEffect s eff).now = s.now
    ∧ (runDemoEffect s eff).stepTimeout = s.stepTimeout := by
  cases eff with
  | navigate t =>
      simp only [runDemoEffect, navigateAce]
      split <;>
        exact ⟨hok.1, hok.2, hcf, le_refl _, by trivial, by trivial, by trivial, by trivial⟩
  | scheduleNav d t =>
      simp only [runDemoEffect]
      refine ⟨?_, ?_, ?_, Nat.le_succ _, by trivial, by trivial, by trivial, by trivial⟩
      · intro u hu
        rcases List.mem_append.mp hu with hu | hu
        · exact Nat.lt_succ_of_lt (hok.1 u hu)
        · simp at hu
          simp [hu]
      · rw [List.pairwise_append]
        refine ⟨hok.2, List.pairwise_singleton _ _, ?_⟩
        intro a ha b hb
        simp at hb
        simp [hb]
        exact Nat.ne_of_lt (hok.1 a ha)
      · intro u hu
        rcases List.mem_append.mp hu with hu | hu
        · exact hcf u hu
        · simp at hu
          simp [hu, isChain]
  | resetDemo =>
      simp only [runDemoEffect, demoReset, navigateAce]
      split <;>
        exact ⟨hok.1, hok.2, hcf, le_refl _, by trivial, by trivial, by trivial, by trivial⟩
  | cosmetic =>
      exact ⟨hok.1, hok.2, hcf, le_refl _, rfl, rfl, rfl, rfl⟩

theorem demoExecuteStep_inv (s : DState)
    (hok : TimersOk s) (hcf : ChainFree s.timers) :
    DemoInv (demoExecuteStep s)
    ∧ (∀ t ∈ (demoExecuteStep s).timers, isChain t = true → s.nextId ≤ t.id) := by
  simp only [demoExecuteStep]
  split
  · exact ⟨⟨hok, fun _ => hcf, fun _ => hcf,
      fun t ht hc => absurd hc (by simp [hcf t ht])⟩,
      fun t ht hc => absurd hc (by simp [hcf t ht])⟩
  · rename_i hg
    have hrun : s.isRunning = true := by
      cases h : s.isRunning
      · exact absurd (by simp [h]) hg
      · rfl
    have hpau : s.isPaused = false := by
      cases h : s.isPaused
      · rfl
      · exact absurd (by simp [h]) hg
    split
    · -- index past the script: stop()
      have h5 : ∀ t ∈ s.timers, isChain t = true → s.stepTimeout = some t.id :=
        fun t ht hc => absurd hc (by simp [hcf t ht])
      obtain ⟨hinv, hcf', hnid, _, _⟩ := demoStop_inv s hok h5
      exact ⟨hinv, fun t ht hc => absurd hc (by simp [hcf' t ht])⟩
    · rename_i step hstep
      set s2 : DState := { s with events := DEv.execStep s.now s.currentStep :: s.events } with hs2
      have hok2 : TimersOk s2 := hok
      have hcf2 : ChainFree s2.timers := hcf
      obtain ⟨f1, f2, f3, f4, f5, f6, f7, f8⟩ := runDemoEffect_facts s2 step.effect hok2 hcf2
      set s3 : DState := runDemoEffect s2 step.effect with hs3
      constructor
      · refine ⟨⟨?_, ?_⟩, ?_, ?_, ?_⟩
        · intro t ht
          rcases List.mem_append.mp ht with ht | ht
          · exact Nat.lt_succ_of_lt (f1 t ht)
          · simp at ht
            simp [ht]
        · rw [List.pairwise_append]
          refine ⟨f2, List.pairwise_singleton _ _, ?_⟩
          intro a ha b hb
          simp at hb
          simp [hb]
          exact Nat.ne_of_lt (f1 a ha)
        · intro hfalse
          rw [show ({ s3 with timers := s3.timers ++ [{ id := s3.nextId, fireAt := s3.now + step.duration, task := DTask.chain }], stepTimeout := some s3.nextId, nextId := s3.nextId + 1 } : DState).isRunning = s.isRunning from f5] at hfalse
          rw [hrun] at hfalse
          exact Bool.noConfusion hfalse
        · intro hfalse
          rw [show ({ s3 with timers := s3.timers ++ [{ id := s3.nextId, fireAt := s3.now + step.duration, task := DTask.chain }], stepTimeout := some s3.nextId, nextId := s3.nextId + 1 } : DState).isPaused = s.isPaused from f6] at hfalse
          rw [hpau] at hfalse
          exact Bool.noConfusion hfalse
        · intro t ht hc
          rcases List.mem_append.mp ht with ht | ht
          · exact absurd hc (by simp [f3 t ht])
          · simp at ht
            simp [ht]
      · intro t ht hc
        rcases List.mem_append.mp ht with ht | ht
        · exact absurd hc (by simp [f3 t ht])
        · simp at ht
          simp [ht]
          exact f4
theorem demoNextStep_inv (s : DState)
    (hok : TimersOk s) (hcf : ChainFree s.timers) :
    DemoInv (demoNextStep s) := by
  simp only [demoNextStep]
  split
  · exact ⟨hok, fun _ => hcf, fun _ => hcf,
      fun t ht hc => absurd hc (by simp [hcf t ht])⟩
  · split
    · have h5 : ∀ t ∈ ({ s with currentStep := s.currentStep + 1 } : DState).timers,
          isChain t = true →
          ({ s with currentStep := s.currentStep + 1 } : DState).stepTimeout = some t.id :=
        fun t ht hc => absurd hc (by simp [hcf t ht])
      exact (demoStop_inv { s with currentStep := s.currentStep + 1 } hok h5).1
    · exact (demoExecuteStep_inv { s with currentStep := s.currentStep + 1 } hok hcf).1

theorem navigateAce_inv (s : DState) (x : String) (h : DemoInv s) :
    DemoInv (navigateAce s x) := by
  simp only [navigateAce]
  split
  · exact h
  · exact h

theorem dearliest_mem : ∀ (l : List DTimer) (t : DTimer), dearliest l = some t → t ∈ l := by
  intro l
  induction l with
  | nil => intro t ht; exact Option.noConfusion ht
  | cons a rest ih =>
      intro t ht
      simp only [dearliest] at ht
      cases hh : dearliest rest with
      | none =>
          simp only [hh] at ht
          injection ht with ht
          rw [← ht]
          exact List.mem_cons_self a rest
      | some u =>
          simp only [hh] at ht
          split at ht
          · injection ht with ht
            rw [← ht]
            exact List.mem_cons_of_mem a (ih u hh)
          · injection ht with ht
            rw [← ht]
            exact List.mem_cons_self a rest

theorem demoFire_inv (s : DState) (h : DemoInv s) : DemoInv (demoFire s) := by
  obtain ⟨hok, h3, h4, h5⟩ := h
  simp only [demoFire]
  rcases he : dearliest s.timers with _ | t
  · exact ⟨hok, h3, h4, h5⟩
  · have htm : t ∈ s.timers := dearliest_mem s.timers t he
    show DemoInv (match t.task with
      | DTask.chain =>
          demoNextStep { s with timers := s.timers.filter (fun u => u.id != t.id)
                              , now := max s.now t.fireAt }
      | DTask.navTo tgt =>
          navigateAce { s with timers := s.timers.filter (fun u => u.id != t.id)
                             , now := max s.now t.fireAt } tgt)
    set s1 : DState := { s with timers := s.timers.filter (fun u => u.id != t.id)
                              , now := max s.now t.fireAt } with hs1
    have hok1 : TimersOk s1 := by
      refine ⟨fun u hu => hok.1 u (List.mem_of_mem_filter hu), ?_⟩
      exact hok.2.sublist (List.filter_sublist _)
    cases htk : t.task with
    | chain =>
        have hchain : isChain t = true := by simp [isChain, htk]
        have hst : s.stepTimeout = some t.id := h5 t htm hchain
        have hcf1 : ChainFree s1.timers := by
          intro u hu
          rcases List.mem_filter.mp hu with ⟨hum, hid⟩
          by_contra hc
          have huc : isChain u = true := by revert hc; cases isChain u <;> simp
          have heq := h5 u hum huc
          rw [hst] at heq
          have heq2 : u.id = t.id := by injection heq with hv; exact hv.symm
          simp [heq2] at hid
        exact demoNextStep_inv s1 hok1 hcf1
    | navTo tgt =>
        refine navigateAce_inv s1 tgt ⟨hok1, ?_, ?_, ?_⟩
        · intro hr u hu
          exact h3 hr u (List.mem_of_mem_filter hu)
        · intro hp u hu
          exact h4 hp u (List.mem_of_mem_filter hu)
        · intro u hu hc
          exact h5 u (List.mem_of_mem_filter hu) hc

theorem demoStart_inv (s : DState) (h : DemoInv s) :
    DemoInv (demoStart s)
    ∧ (∀ t ∈ (demoStart s).timers, isChain t = true → s.nextId ≤ t.id) := by
  obtain ⟨hok, h3, h4, h5⟩ := h
  simp only [demoStart]
  split
  · rename_i hr
    obtain ⟨⟨hok', _, _, _⟩, hcf', hnid, _, _⟩ := demoStop_inv s hok h5
    set s1 : DState := { demoStop s with isRunning := true, isPaused := false, currentStep := 0 }
      with hs1
    have hok1 : TimersOk s1 := hok'
    have hcf1 : ChainFree s1.timers := hcf'
    obtain ⟨hi, hf⟩ := demoExecuteStep_inv s1 hok1 hcf1
    refine ⟨hi, ?_⟩
    intro t ht hc
    have := hf t ht hc
    calc s.nextId = (demoStop s).nextId := hnid.symm
      _ = s1.nextId := rfl
      _ ≤ t.id := this
  · rename_i hr
    have hrf : s.isRunning = false := by
      cases h : s.isRunning
      · rfl
      · rw [h] at hr; exact absurd rfl hr
    have hcf : ChainFree s.timers := h3 hrf
    set s1 : DState := { s with isRunning := true, isPaused := false, currentStep := 0 } with hs1
    exact demoExecuteStep_inv s1 hok hcf

theorem demoPause_inv (s : DState) (h : DemoInv s) : DemoInv (demoPause s) := by
  obtain ⟨hok, h3, h4, h5⟩ := h
  simp only [demoPause]
  split
  · exact ⟨hok, h3, h4, h5⟩
  · set s1 : DState := { s with isPaused := true } with hs1
    have hcf : ChainFree (clearStepTimeout s1).timers := clear_chainFree s1 h5
    have hok' := clear_timersOk s1 hok
    have hproj := clear_proj s1
    refine ⟨⟨?_, hok'.2⟩, fun _ => hcf, fun _ => hcf, ?_⟩
    · rw [hproj.2.2.2.1]; exact hok'.1
    · intro t ht hc
      exact absurd hc (by simp [hcf t ht])

theorem demoResume_inv (s : DState) (h : DemoInv s) : DemoInv (demoResume s) := by
  obtain ⟨hok, h3, h4, h5⟩ := h
  simp only [demoResume]
  split
  · exact ⟨hok, h3, h4, h5⟩
  · rename_i hg
    have hp : s.isPaused = true := by
      cases h : s.isPaused
      · exact absurd (by simp [h]) hg
      · rfl
    exact (demoExecuteStep_inv { s with isPaused := false } hok (h4 hp)).1

theorem demoSkipToStep_inv (s : DState) (j : Nat) (h : DemoInv s) :
    DemoInv (demoSkipToStep s j) := by
  obtain ⟨hok, h3, h4, h5⟩ := h
  simp only [demoSkipToStep]
  split
  · exact ⟨hok, h3, h4, h5⟩
  · have hcf : ChainFree (clearStepTimeout s).timers := clear_chainFree s h5
    have hok' := clear_timersOk s hok
    have hproj := clear_proj s
    refine (demoExecuteStep_inv { clearStepTimeout s with currentStep := j } ⟨?_, hok'.2⟩ hcf).1
    rw [hproj.2.2.2.1]
    exact hok'.1
theorem chainFree_filter_nil {l : List DTimer} (h : ChainFree l) :
    l.filter isChain = [] := by
  rw [List.filter_eq_nil_iff]
  intro t ht
  simp [h t ht]

theorem chain_length_le_one (l : List DTimer) (i : Nat)
    (hpw : l.Pairwise (fun a b => a.id ≠ b.id))
    (h : ∀ t ∈ l, isChain t = true → t.id = i) :
    (l.filter isChain).length ≤ 1 := by
  induction l with
  | nil => simp
  | cons a rest ih =>
      rcases List.pairwise_cons.mp hpw with ⟨ha, hpw'⟩
      by_cases hc : isChain a = true
      · have ha_id : a.id = i := h a (List.mem_cons_self _ _) hc
        have hrest : rest.filter isChain = [] := by
          rw [List.filter_eq_nil_iff]
          intro b hb
          intro hcb
          have hb_id : b.id = i := h b (List.mem_cons_of_mem _ hb) hcb
          exact ha b hb (by rw [ha_id, hb_id])
        simp [List.filter_cons, hc, hrest]
      · have hcf : isChain a = false := by revert hc; cases isChain a <;> simp
        simp only [List.filter_cons, hcf, Bool.false_eq_true, if_false]
        exact ih hpw' (fun t ht hct => h t (List.mem_cons_of_mem _ ht) hct)

theorem demoInv_chain_le_one (s : DState) (h : DemoInv s) :
    (chainTimers s).length ≤ 1 := by
  obtain ⟨hok, h3, h4, h5⟩ := h
  rw [chainTimers]
  cases hst : s.stepTimeout with
  | none =>
      have : ChainFree s.timers := by
        intro t ht
        by_contra hc
        have hct : isChain t = true := by revert hc; cases isChain t <;> simp
        have := h5 t ht hct
        rw [hst] at this
        exact Option.noConfusion this
      rw [chainFree_filter_nil this]
      simp
  | some i =>
      refine chain_length_le_one s.timers i hok.2 ?_
      intro t ht hct
      have := h5 t ht hct
      rw [hst] at this
      injection this with hv
      exact hv.symm

theorem demoInv_initDemo : DemoInv initDemo := by
  refine ⟨⟨?_, ?_⟩, ?_, ?_, ?_⟩ <;> simp [initDemo, ChainFree]

theorem applyDemoOp_inv (s : DState) (op : DemoOp) (h : DemoInv s) :
    DemoInv (applyDemoOp s op) := by
  cases op with
  | start => exact (demoStart_inv s h).1
  | stop => exact (demoStop_inv s h.1 h.2.2.2).1
  | pause => exact demoPause_inv s h
  | resume => exact demoResume_inv s h
  | skipTo j => exact demoSkipToStep_inv s j h
  | fire => exact demoFire_inv s h
  | advance t => exact h

theorem runDemo_inv (ops : List DemoOp) : DemoInv (runDemo ops) := by
  rw [runDemo]
  have H : ∀ (l : List DemoOp) (s : DState), DemoInv s → DemoInv (l.foldl applyDemoOp s) := by
    intro l
    induction l with
    | nil => intro s h; exact h
    | cons op rest ih =>
        intro s h
        rw [List.foldl_cons]
        exact ih _ (applyDemoOp_inv s op h)
  exact H ops initDemo demoInv_initDemo

theorem runDemo_append_start (ops : List DemoOp) :
    runDemo (ops ++ [DemoOp.start]) = demoStart (runDemo ops) := by
  rw [runDemo, runDemo, List.foldl_append]
  rfl

theorem demoExecuteStep_step0 (s : DState) (h : s.currentStep = 0) :
    (demoExecuteStep s).currentStep = 0 := by
  simp only [demoExecuteStep, h]
  split
  · exact h
  · split
    · rename_i heq
      simp [demoSequence] at heq
    · rename_i step heq
      simp only [demoSequence] at heq
      rw [show (([ { name := "Show chaos section", duration := 4000, effect := DEffect.navigate "chaos" }
        , { name := "Click a problem paper", duration := 3000, effect := DEffect.cosmetic }
        , { name := "Close modal and transition to valet", duration := 4000
          , effect := DEffect.scheduleNav 500 "valet" }
        , { name := "Transition to manager section", duration := 3000
          , effect := DEffect.navigate "manager" }
        , { name := "Open binder", duration := 3000, effect := DEffect.cosmetic }
        , { name := "Transition to executive section", duration := 4000
          , effect := DEffect.navigate "executive" }
        , { name := "Click KPI card", duration := 3000, effect := DEffect.cosmetic }
        , { name := "Close modal and transition to closing", duration := 4000
          , effect := DEffect.scheduleNav 500 "closing" }
        , { name := "Highlight launch button", duration := 2000, effect := DEffect.cosmetic }
        , { name := "Reset demo", duration := 0, effect := DEffect.resetDemo } ] : List DStep)[0]?
        = some { name := "Show chaos section", duration := 4000, effect := DEffect.navigate "chaos" }) from rfl] at heq
      injection heq with heq
      rw [← heq]
      simp [runDemoEffect, navigateAce, h]
      split <;> simp [h]

theorem demoStart_step0 (s : DState) : (demoStart s).currentStep = 0 := by
  simp only [demoStart]
  split <;> exact demoExecuteStep_step0 _ rfl

/-- C9: in every state reachable by any sequence of demo operations (start,
stop, pause, resume, skipToStep, a timer firing, time passing), at most one
demo step-chain timer is pending, and none is pending while `isRunning` is
false or `isPaused` is true; moreover `start()` leaves the driver at step 0
and — because a running driver is fully stopped first — every chain timer
pending after `start()` is freshly created (its handle is at least the
fresh-handle counter of the state before the call), so the previously
pending timer has been cancelled. -/
theorem c9_demo_timer_invariant (ops : List DemoOp) :
    (chainTimers (runDemo ops)).length ≤ 1
    ∧ ((runDemo ops).isRunning = false → chainTimers (runDemo ops) = [])
    ∧ ((runDemo ops).isPaused = true → chainTimers (runDemo ops) = [])
    ∧ (runDemo (ops ++ [DemoOp.start])).currentStep = 0
    ∧ (∀ t ∈ chainTimers (runDemo (ops ++ [DemoOp.start])), (runDemo ops).nextId ≤ t.id) := by
  have h := runDemo_inv ops
  refine ⟨demoInv_chain_le_one _ h, ?_, ?_, ?_, ?_⟩
  · intro hr
    exact chainFree_filter_nil (h.2.1 hr)
  · intro hp
    exact chainFree_filter_nil (h.2.2.1 hp)
  · rw [runDemo_append_start]
    exact demoStart_step0 _
  · intro t ht
    rw [runDemo_append_start] at ht
    rcases List.mem_filter.mp ht with ⟨htm, hc⟩
    exact (demoStart_inv _ h).2 t htm hc

/-- C9 witness: the invariant theorem applied to the concrete operation
sequence start-then-fire, and to a restart after it. -/
theorem c9_demo_timer_invariant_witness :
    (chainTimers (runDemo [DemoOp.start, DemoOp.fire])).length ≤ 1
    ∧ (runDemo ([DemoOp.start, DemoOp.fire] ++ [DemoOp.start])).currentStep = 0 :=
  ⟨(c9_demo_timer_invariant [DemoOp.start, DemoOp.fire]).1,
   (c9_demo_timer_invariant [DemoOp.start, DemoOp.fire]).2.2.2.1⟩
